import Mathlib

/-! Player movement, animation state machine and NPC interaction of `public/tsScript.js`.

A shallow embedding of the per-frame logic of `src/public/tsScript.js`
(`updatePlayerMovement`, `onKeyDown`, `onKeyUp`, `checkNPCInteraction`) and the
properties proved about it.

Numbers.  A JavaScript number is an IEEE 754 double, and every finite double is a
rational.  Horizontal quantities (`moveSpeed`, `moveDirection`, `position.x`,
`position.z`) are modelled as such rationals, and each arithmetic operation on
them is the exact operation followed by rounding to the nearest double, ties to
even (`Double.round`).  Signed zero is not distinguished from zero, and overflow
and NaN are not represented; neither arises in the horizontal computations.
Vertical quantities (`deltaTime`, `yVelocity`, `position.y`) are kept as exact
rationals: what is proved of them rests on the comparison `position.y < 0` and
on the constants assigned at landing.
-/

namespace TsScript

/-! ## Double-precision arithmetic on rationals -/

namespace Double

/-- The power `2 ^ e` for an integer `e`. -/
def pow2 (e : ℤ) : ℚ :=
  if 0 ≤ e then ((2 ^ e.toNat : ℕ) : ℚ) else 1 / ((2 ^ (-e).toNat : ℕ) : ℚ)

/-- The binary logarithm of `n ≤ fuel`, rounded down, one binary digit per step. -/
def log2Fuel : ℕ → ℕ → ℕ
  | 0, _ => 0
  | fuel + 1, n => if n < 2 then 0 else log2Fuel fuel (n / 2) + 1

/-- The binary logarithm of `n`, rounded down (0 for `n = 0`); equal to `Nat.log2`. -/
def log2 (n : ℕ) : ℕ := log2Fuel n n

/-- The binary exponent of a non-zero rational `q`: the `e` with
`2 ^ e ≤ |q| < 2 ^ (e + 1)`. -/
def exponent (q : ℚ) : ℤ :=
  let e0 : ℤ := (log2 q.num.natAbs : ℤ) - (log2 q.den : ℤ)
  if pow2 e0 ≤ (if q < 0 then -q else q) then e0 else e0 - 1

/-- The integer nearest to `q`, the even one of the two when `q` lies half way. -/
def roundEven (q : ℚ) : ℤ :=
  let f := Rat.floor q
  if q - f < 1 / 2 then f
  else if 1 / 2 < q - f then f + 1
  else if f % 2 = 0 then f else f + 1

/-- The spacing of the doubles around a non-zero `q`: `2 ^ (e - 52)` for the
exponent `e` of `q`, and `2 ^ (-1074)` in the subnormal range. -/
def ulp (q : ℚ) : ℚ := pow2 (max (exponent q) (-1022) - 52)

/-- The double nearest to `q`, ties to even. -/
def round (q : ℚ) : ℚ := if q = 0 then 0 else (roundEven (q / ulp q) : ℚ) * ulp q

/-- The JavaScript sum `a + b` of two doubles. -/
def add (a b : ℚ) : ℚ := round (a + b)

/-- The JavaScript difference `a - b` of two doubles. -/
def sub (a b : ℚ) : ℚ := round (a - b)

/-- The JavaScript product `a * b` of two doubles. -/
def mul (a b : ℚ) : ℚ := round (a * b)

/-- The JavaScript quotient `a / b` of two doubles, `b` not zero. -/
def div (a b : ℚ) : ℚ := round (a / b)

/-- The integer square root of `n < 4 ^ fuel`, one binary digit per step. -/
def isqrtFuel : ℕ → ℕ → ℕ
  | 0, _ => 0
  | fuel + 1, n =>
    if n = 0 then 0
    else
      let r := 2 * isqrtFuel fuel (n / 4)
      if (r + 1) * (r + 1) ≤ n then r + 1 else r

/-- The integer square root: the largest `r` with `r * r ≤ n`; equal to `Nat.sqrt`. -/
def isqrt (n : ℕ) : ℕ := isqrtFuel n n

/-- The function `Math.sqrt` on a double `x ≥ 0`: the double nearest to `√x`.  With
`u` the spacing of the doubles around `√x` and `m = ⌊√x / u⌋`, the result is
`m * u` or `(m + 1) * u` according to the side of `(m + 1/2) * u` on which `√x`
lies. -/
def sqrt (x : ℚ) : ℚ :=
  if x ≤ 0 then 0
  else
    let u := pow2 (Int.fdiv (exponent x) 2 - 52)
    let t := x / (u * u)
    let m : ℕ := isqrt (t.num.natAbs * t.den) / t.den
    let mid : ℚ := (m : ℚ) + 1 / 2
    if t < mid * mid then m * u
    else if mid * mid < t then (m + 1) * u
    else if m % 2 = 0 then m * u else (m + 1) * u

end Double

/-! ## `THREE.Vector3` -/

/-- The components of a `THREE.Vector3`, each a double. -/
structure Vector3 where
  x : ℚ
  y : ℚ
  z : ℚ
  deriving DecidableEq, Repr

namespace Vector3

/-- `Vector3.lengthSq()`: `this.x * this.x + this.y * this.y + this.z * this.z`. -/
def lengthSq (v : Vector3) : ℚ :=
  Double.add (Double.add (Double.mul v.x v.x) (Double.mul v.y v.y)) (Double.mul v.z v.z)

/-- `Vector3.length()`:
`Math.sqrt(this.x * this.x + this.y * this.y + this.z * this.z)`. -/
def length (v : Vector3) : ℚ := Double.sqrt v.lengthSq

/-- `Vector3.multiplyScalar(s)`. -/
def multiplyScalar (v : Vector3) (s : ℚ) : Vector3 :=
  ⟨Double.mul v.x s, Double.mul v.y s, Double.mul v.z s⟩

/-- `Vector3.divideScalar(s)`: `multiplyScalar(1 / s)`. -/
def divideScalar (v : Vector3) (s : ℚ) : Vector3 := v.multiplyScalar (Double.div 1 s)

/-- `Vector3.normalize()`: `divideScalar(length() || 1)`; a zero length is falsy
and is replaced by 1. -/
def normalize (v : Vector3) : Vector3 :=
  v.divideScalar (if v.length = 0 then 1 else v.length)

end Vector3

/-- Lines 123-127 of `updatePlayerMovement`: `moveDirection.set(0, 0, 0)` followed by
the four flag tests, before normalisation. -/
def rawDirection (moveForward moveBackward moveLeft moveRight : Bool) : Vector3 :=
  let z0 : ℚ := 0
  let z1 := if moveForward then Double.sub z0 1 else z0
  let z2 := if moveBackward then Double.add z1 1 else z1
  let x0 : ℚ := 0
  let x1 := if moveLeft then Double.sub x0 1 else x0
  let x2 := if moveRight then Double.add x1 1 else x1
  ⟨x2, 0, z2⟩

/-- Lines 123-128: the direction built from the flags, normalised. -/
def direction (moveForward moveBackward moveLeft moveRight : Bool) : Vector3 :=
  (rawDirection moveForward moveBackward moveLeft moveRight).normalize

/-! ## Program state -/

/-- The three names under which clips are looked up and which
`currentAnimationState` takes: `'idle'`, `'walk'`, `'jump'`. -/
inductive AnimState
  | idle
  | walk
  | jump
  deriving DecidableEq, Repr

/-- A call made on a clip action of `playerAnimations`. -/
inductive Cmd
  | fadeOut (clip : AnimState) (duration : ℚ)
  | reset (clip : AnimState)
  | fadeIn (clip : AnimState) (duration : ℚ)
  | play (clip : AnimState)
  deriving DecidableEq, Repr

/-- The object `playerAnimations`: which of the three keys hold a clip action. -/
structure PlayerAnimations where
  idle : Bool
  walk : Bool
  jump : Bool
  deriving DecidableEq, Repr

/-- The field `player.position`: `x` and `z` are doubles, `y` is kept exact. -/
structure Position where
  x : ℚ
  y : ℚ
  z : ℚ
  deriving DecidableEq, Repr

/-- The player object.  Its rotation is never set by the script, so the local axes
of `translateX` and `translateZ` are the axes of `position`. -/
structure Player where
  position : Position
  deriving DecidableEq, Repr

/-- An entry of `npcs`.  The field `ref` stands for the identity of the JavaScript
object, which is what `!==` compares. -/
structure NPC where
  ref : ℕ
  name : String
  dataFile : String
  popupTitle : String
  deriving DecidableEq, Repr

/-- A call to `showNPCDialogue` or to `hideNPCDialogue`. -/
inductive DialogueCall
  | show (message : String) (npc : NPC)
  | hide
  deriving DecidableEq, Repr

/-- The module-level variables of `tsScript.js` read or written by the functions
below, with the log of clip commands and the log of dialogue calls. -/
structure State where
  player : Option Player
  playerAnimations : PlayerAnimations
  currentAnimationState : AnimState
  moveDirection : Vector3
  moveForward : Bool
  moveBackward : Bool
  moveLeft : Bool
  moveRight : Bool
  isJumping : Bool
  yVelocity : ℚ
  currentNPC : Option NPC
  clipLog : List Cmd
  dialogueLog : List DialogueCall
  deriving DecidableEq, Repr

/-- The exception a frame can raise: a property access on `undefined`. -/
inductive JsError
  | typeError
  deriving DecidableEq, Repr

/-- How a function call ends: the state it leaves, and the exception if it raised one. -/
structure Result where
  state : State
  error : Option JsError
  deriving DecidableEq, Repr

/-- The constant `moveSpeed = 0.1`: the double nearest to 1/10. -/
def moveSpeed : ℚ := Double.round (1 / 10)

/-- The constant `gravity = -9.8`. -/
def gravity : ℚ := -49 / 5

/-- The fade duration `0.2` passed to `fadeOut` and `fadeIn`. -/
def fadeDuration : ℚ := 1 / 5

/-- Lines 5-9: the module-level variables before any asset has loaded. -/
def initialState : State :=
  { player := none
    playerAnimations := ⟨false, false, false⟩
    currentAnimationState := AnimState.idle
    moveDirection := ⟨0, 0, 0⟩
    moveForward := false
    moveBackward := false
    moveLeft := false
    moveRight := false
    isJumping := false
    yVelocity := 0
    currentNPC := none
    clipLog := []
    dialogueLog := [] }

/-- Lines 70-94, the load callback of `character.glb`: the player is placed at
the origin, a clip action is stored for each of the three names found among the
animations of the file, and the idle clip, if there is one, is played. -/
def onPlayerLoaded (found : PlayerAnimations) (s : State) : State :=
  let s1 := { s with player := some ⟨⟨0, 0, 0⟩⟩ }
  let s2 := { s1 with playerAnimations :=
    ⟨found.idle || s1.playerAnimations.idle, found.walk || s1.playerAnimations.walk,
      found.jump || s1.playerAnimations.jump⟩ }
  if s2.playerAnimations.idle then
    { s2 with clipLog := s2.clipLog ++ [Cmd.play AnimState.idle],
              currentAnimationState := AnimState.idle }
  else s2

/-- The statement `if (playerAnimations[clip]) playerAnimations[clip].fadeOut(0.2)`. -/
def fadeOutIfLoaded (loaded : Bool) (clip : AnimState) (log : List Cmd) : List Cmd :=
  if loaded then log ++ [Cmd.fadeOut clip fadeDuration] else log

/-- The statement `playerAnimations[clip].reset().fadeIn(0.2).play()`. -/
def resetFadeInPlay (clip : AnimState) (log : List Cmd) : List Cmd :=
  log ++ [Cmd.reset clip, Cmd.fadeIn clip fadeDuration, Cmd.play clip]

/-- The call `player.translateZ(d)` on a player whose rotation is the identity:
`position.z` becomes the double sum `position.z + d`. -/
def Player.translateZ (p : Player) (d : ℚ) : Player :=
  { p with position := { p.position with z := Double.add p.position.z d } }

/-- The call `player.translateX(d)` on a player whose rotation is the identity:
`position.x` becomes the double sum `position.x + d`. -/
def Player.translateX (p : Player) (d : ℚ) : Player :=
  { p with position := { p.position with x := Double.add p.position.x d } }

/-- Lines 123-128 of `updatePlayerMovement`: `moveDirection` is rebuilt from the
four intent flags and normalised. -/
def setMoveDirection (s : State) : State :=
  { s with moveDirection := direction s.moveForward s.moveBackward s.moveLeft s.moveRight }

/-- Lines 130-147 of `updatePlayerMovement`: the horizontal translation and the
walk/idle transitions that go with it. -/
def moveBlock (s : State) : Result :=
  if 0 < s.moveDirection.lengthSq then
    match s.player with
    | none => ⟨s, some JsError.typeError⟩
    | some p =>
      let p1 := p.translateZ (Double.mul moveSpeed s.moveDirection.z)
      let p2 := p1.translateX (Double.mul moveSpeed s.moveDirection.x)
      let s1 := { s with player := some p2 }
      if s1.currentAnimationState ≠ AnimState.walk ∧ s1.playerAnimations.walk = true then
        ⟨{ s1 with
            clipLog := resetFadeInPlay AnimState.walk
              (fadeOutIfLoaded s1.playerAnimations.idle AnimState.idle s1.clipLog)
            currentAnimationState := AnimState.walk }, none⟩
      else if s1.moveDirection.lengthSq = 0
          ∧ s1.currentAnimationState = AnimState.walk
          ∧ s1.playerAnimations.idle = true then
        if s1.playerAnimations.walk = true then
          ⟨{ s1 with
              clipLog := resetFadeInPlay AnimState.idle
                (s1.clipLog ++ [Cmd.fadeOut AnimState.walk fadeDuration])
              currentAnimationState := AnimState.idle }, none⟩
        else ⟨s1, some JsError.typeError⟩
      else ⟨s1, none⟩
  else if s.currentAnimationState ≠ AnimState.idle ∧ s.playerAnimations.idle = true then
    ⟨{ s with
        clipLog := resetFadeInPlay AnimState.idle
          (fadeOutIfLoaded s.playerAnimations.walk AnimState.walk s.clipLog)
        currentAnimationState := AnimState.idle }, none⟩
  else ⟨s, none⟩

/-- Lines 149-181 of `updatePlayerMovement`: the vertical integration while a jump
is in progress, the landing, and the transitions of the animation state. -/
def jumpBlock (s : State) (deltaTime : ℚ) : Result :=
  if s.isJumping = true then
    let s1 := { s with yVelocity := s.yVelocity + gravity * deltaTime * 2 }
    match s1.player with
    | none => ⟨s1, some JsError.typeError⟩
    | some p =>
      let p1 : Player :=
        { p with position := { p.position with y := p.position.y + s1.yVelocity * deltaTime } }
      let s2 := { s1 with player := some p1 }
      if p1.position.y < 0 then
        let s3 := { s2 with
          player := some { p1 with position := { p1.position with y := 0 } }
          isJumping := false
          yVelocity := 0 }
        if 0 < s3.moveDirection.lengthSq ∧ s3.playerAnimations.walk = true then
          ⟨{ s3 with
              clipLog := resetFadeInPlay AnimState.walk
                (fadeOutIfLoaded s3.playerAnimations.jump AnimState.jump s3.clipLog)
              currentAnimationState := AnimState.walk }, none⟩
        else if s3.playerAnimations.idle = true then
          ⟨{ s3 with
              clipLog := resetFadeInPlay AnimState.idle
                (fadeOutIfLoaded s3.playerAnimations.jump AnimState.jump s3.clipLog)
              currentAnimationState := AnimState.idle }, none⟩
        else ⟨s3, none⟩
      else if s2.currentAnimationState ≠ AnimState.jump ∧ s2.playerAnimations.jump = true then
        ⟨{ s2 with
            clipLog := resetFadeInPlay AnimState.jump
              (fadeOutIfLoaded s2.playerAnimations.walk AnimState.walk
                (fadeOutIfLoaded s2.playerAnimations.idle AnimState.idle s2.clipLog))
            currentAnimationState := AnimState.jump }, none⟩
      else ⟨s2, none⟩
  else if 0 < s.moveDirection.lengthSq
      ∧ s.currentAnimationState ≠ AnimState.walk ∧ s.playerAnimations.walk = true then
    ⟨{ s with
        clipLog := resetFadeInPlay AnimState.walk
          (fadeOutIfLoaded s.playerAnimations.idle AnimState.idle s.clipLog)
        currentAnimationState := AnimState.walk }, none⟩
  else if s.moveDirection.lengthSq = 0
      ∧ s.currentAnimationState ≠ AnimState.idle ∧ s.playerAnimations.idle = true then
    ⟨{ s with
        clipLog := resetFadeInPlay AnimState.idle
          (fadeOutIfLoaded s.playerAnimations.walk AnimState.walk s.clipLog)
        currentAnimationState := AnimState.idle }, none⟩
  else ⟨s, none⟩

/-- The function `updatePlayerMovement(deltaTime)`, lines 122-182.  An exception
raised in the first part ends the call. -/
def updatePlayerMovement (s : State) (deltaTime : ℚ) : Result :=
  let r := moveBlock (setMoveDirection s)
  match r.error with
  | some e => ⟨r.state, some e⟩
  | none => jumpBlock r.state deltaTime

/-! ## Keyboard -/

/-- The values of `event.code` that the key handlers distinguish; `other` is any
other code. -/
inductive KeyCode
  | arrowUp
  | keyW
  | arrowLeft
  | keyA
  | arrowDown
  | keyS
  | arrowRight
  | keyD
  | space
  | other
  deriving DecidableEq, Repr

/-- The function `onKeyDown(event)`, lines 274-301. -/
def onKeyDown (code : KeyCode) (s : State) : State :=
  match code with
  | KeyCode.arrowUp | KeyCode.keyW => { s with moveForward := true }
  | KeyCode.arrowLeft | KeyCode.keyA => { s with moveLeft := true }
  | KeyCode.arrowDown | KeyCode.keyS => { s with moveBackward := true }
  | KeyCode.arrowRight | KeyCode.keyD => { s with moveRight := true }
  | KeyCode.space =>
    if s.isJumping = false then { s with isJumping := true, yVelocity := 5 } else s
  | KeyCode.other => s

/-- The function `onKeyUp(event)`, lines 303-323. -/
def onKeyUp (code : KeyCode) (s : State) : State :=
  match code with
  | KeyCode.arrowUp | KeyCode.keyW => { s with moveForward := false }
  | KeyCode.arrowLeft | KeyCode.keyA => { s with moveLeft := false }
  | KeyCode.arrowDown | KeyCode.keyS => { s with moveBackward := false }
  | KeyCode.arrowRight | KeyCode.keyD => { s with moveRight := false }
  | KeyCode.space | KeyCode.other => s

/-! ## NPC interaction -/

/-- What the raycast of a frame gives `checkNPCInteraction`: either `intersects` is
empty, or it has a first object, owned by the entry `owner` of `npcs` (the entry
whose model that object is or descends from; every object the ray can hit is
part of the model of an entry, since only those models are passed to
`intersectObjects`). -/
inductive Raycast
  | noHit
  | hit (owner : NPC)
  deriving DecidableEq, Repr

/-- The function `checkNPCInteraction()`, lines 201-219, on the raycast result of
the frame.  With a hit, line 209 runs the callback of `npcs.find` on the first
entry of `npcs`, and the callback calls `firstIntersectedObject.isDescendantOf`.
No such method exists: the script defines none and `THREE.Object3D` has none, so
the call raises a TypeError and lines 211-214 are not reached.  Without a hit,
lines 215-218 hide the dialogue of the current NPC, if there is one. -/
def checkNPCInteraction (ray : Raycast) (s : State) : Result :=
  match ray with
  | Raycast.hit _ => ⟨s, some JsError.typeError⟩
  | Raycast.noHit =>
    match s.currentNPC with
    | some _ =>
      ⟨{ s with dialogueLog := s.dialogueLog ++ [DialogueCall.hide], currentNPC := none }, none⟩
    | none => ⟨s, none⟩

/-! ## Runs -/

/-- What can happen between two renderings: a key goes down, a key goes up, or a
frame calls `updatePlayerMovement` with the time elapsed. -/
inductive Input
  | keyDown (code : KeyCode)
  | keyUp (code : KeyCode)
  | frame (deltaTime : ℚ)
  deriving DecidableEq, Repr

/-- The state after one input.  A frame leaves the state in which
`updatePlayerMovement` ended. -/
def step (s : State) : Input → State
  | Input.keyDown code => onKeyDown code s
  | Input.keyUp code => onKeyUp code s
  | Input.frame deltaTime => (updatePlayerMovement s deltaTime).state

/-- The state after a sequence of inputs, oldest first. -/
def run (s : State) (inputs : List Input) : State := inputs.foldl step s

/-- The state after `n` frames of `updatePlayerMovement` with the same `deltaTime`
and no input in between. -/
def frames (deltaTime : ℚ) : ℕ → State → State
  | 0, s => s
  | n + 1, s => (updatePlayerMovement (frames deltaTime n s) deltaTime).state

/-- The state after the frames of `updatePlayerMovement` with the given times, oldest
first, and no input in between. -/
def framesOf (s : State) (deltaTimes : List ℚ) : State :=
  deltaTimes.foldl (fun t deltaTime => (updatePlayerMovement t deltaTime).state) s

/-- The state after the raycast results of consecutive frames of
`checkNPCInteraction`, oldest first; a frame that raises leaves the state in
which it raised. -/
def interactionFrames (s : State) (rays : List Raycast) : State :=
  rays.foldl (fun t ray => (checkNPCInteraction ray t).state) s

/-- The state once `character.glb` has loaded with the idle, walk and jump clips. -/
def loadedState : State := onPlayerLoaded ⟨true, true, true⟩ initialState

/-! ## The direction vector -/

/-- The zero vector. -/
def zeroVector : Vector3 := ⟨0, 0, 0⟩

/-- Whether the intents leave a direction: forward and backward differ, or left and
right differ. -/
def uncancelled (moveForward moveBackward moveLeft moveRight : Bool) : Bool :=
  (moveForward != moveBackward) || (moveLeft != moveRight)

/-- The lookup `playerAnimations[name]`, as a truth value. -/
def PlayerAnimations.loaded (pa : PlayerAnimations) : AnimState → Bool
  | AnimState.idle => pa.idle
  | AnimState.walk => pa.walk
  | AnimState.jump => pa.jump

/-- Whether the intents of a state leave a direction. -/
def State.intent (s : State) : Bool :=
  uncancelled s.moveForward s.moveBackward s.moveLeft s.moveRight

/-- The height that lines 151-152 compute for a player at `p` in state `s`:
`position.y + (yVelocity + gravity * deltaTime * 2) * deltaTime`. -/
def integratedHeight (s : State) (p : Player) (deltaTime : ℚ) : ℚ :=
  p.position.y + (s.yVelocity + gravity * deltaTime * 2) * deltaTime

/-! ## Invariants and inputs used in the statements -/

/-- The player is present at a height that is not negative, and on the ground
with no vertical velocity whenever no jump is in progress. -/
def HeightInv (s : State) : Prop :=
  ∃ p : Player, s.player = some p ∧ 0 ≤ p.position.y ∧
    (s.isJumping = false → p.position.y = 0 ∧ s.yVelocity = 0)

/-- The value of `position.z` after `k` frames of walking straight ahead from `z`:
each frame adds the double product `moveSpeed * -1` in double arithmetic. -/
def forwardZ (z : ℚ) : ℕ → ℚ
  | 0 => z
  | k + 1 => Double.add (forwardZ z k) (Double.mul moveSpeed (-1))

/-- The state of a walk straight ahead from `p` after `k` frames: only the forward
intent is active, no jump is in progress, the walk clip is loaded, and the player
stands at `forwardZ p.position.z k` with `x` and `y` unchanged. -/
def ForwardInv (p : Player) (k : ℕ) (s : State) : Prop :=
  s.moveForward = true ∧ s.moveBackward = false ∧ s.moveLeft = false ∧ s.moveRight = false ∧
  s.isJumping = false ∧ s.playerAnimations.walk = true ∧
  ∃ q : Player, s.player = some q ∧ q.position.x = p.position.x ∧
    q.position.y = p.position.y ∧ q.position.z = forwardZ p.position.z k

/-- The height `k` frames of `deltaTime` after the jump impulse, while it has not
landed: the sum of `(5 + gravity * deltaTime * 2 * i) * deltaTime` for `i = 1..k`. -/
def jumpHeight (deltaTime : ℚ) (k : ℕ) : ℚ :=
  5 * k * deltaTime - 49 / 5 * deltaTime ^ 2 * k * (k + 1)

/-- The state `k` frames into a jump without intents that has not landed. -/
def AirInv (deltaTime : ℚ) (k : ℕ) (s : State) : Prop :=
  s.moveForward = false ∧ s.moveBackward = false ∧ s.moveLeft = false ∧ s.moveRight = false ∧
  s.playerAnimations = ⟨true, true, true⟩ ∧ s.isJumping = true ∧
  s.yVelocity = 5 + gravity * deltaTime * 2 * k ∧
  ∃ q : Player, s.player = some q ∧ q.position.y = jumpHeight deltaTime k

/-- The state at rest after the landing: Idle, on the ground, no jump, no intents. -/
def RestInv (s : State) : Prop :=
  s.moveForward = false ∧ s.moveBackward = false ∧ s.moveLeft = false ∧ s.moveRight = false ∧
  s.playerAnimations = ⟨true, true, true⟩ ∧ s.isJumping = false ∧ s.yVelocity = 0 ∧
  s.currentAnimationState = AnimState.idle ∧
  ∃ q : Player, s.player = some q ∧ q.position.y = 0

/-- An entry of `npcs` used as a concrete input. -/
def gymNpcRecord : NPC := ⟨0, "gym_npc", "gym.json", "Skills"⟩

/-! ## The integer functions of the rounding agree with the library -/

theorem Double.log2Fuel_eq (fuel n : ℕ) (h : n ≤ fuel) : Double.log2Fuel fuel n = Nat.log2 n := by
  induction fuel generalizing n with
  | zero =>
    have : n = 0 := by omega
    subst this
    simp [Double.log2Fuel, Nat.log2]
  | succ k ih =>
    unfold Double.log2Fuel
    rw [Nat.log2]
    by_cases h2 : n < 2
    · have h3 : ¬ 2 ≤ n := by omega
      simp [h2, h3]
    · have h3 : 2 ≤ n := by omega
      have : n / 2 ≤ k := by omega
      simp [h2, h3, ih _ this]

theorem Double.log2_eq (n : ℕ) : Double.log2 n = Nat.log2 n := Double.log2Fuel_eq n n le_rfl

theorem Double.isqrtFuel_spec (fuel n : ℕ) (h : n < 4 ^ fuel) :
    Double.isqrtFuel fuel n * Double.isqrtFuel fuel n ≤ n ∧
    n < (Double.isqrtFuel fuel n + 1) * (Double.isqrtFuel fuel n + 1) := by
  induction fuel generalizing n with
  | zero =>
    have : n = 0 := by simpa using h
    subst this
    simp [Double.isqrtFuel]
  | succ k ih =>
    unfold Double.isqrtFuel
    by_cases h0 : n = 0
    · simp [h0]
    · have hq : n / 4 < 4 ^ k := by
        apply Nat.div_lt_of_lt_mul
        rw [pow_succ] at h
        omega
      obtain ⟨h1, h2⟩ := ih (n / 4) hq
      have hn : n = 4 * (n / 4) + n % 4 := (Nat.div_add_mod n 4).symm
      have hm : n % 4 < 4 := Nat.mod_lt n (by norm_num)
      simp only [h0, if_false]
      generalize Double.isqrtFuel k (n / 4) = r0 at h1 h2 ⊢
      generalize n / 4 = q at hn h1 h2
      generalize n % 4 = m at hn hm
      split_ifs with hc
      · refine ⟨hc, ?_⟩
        nlinarith
      · refine ⟨by nlinarith, by omega⟩

theorem Double.isqrt_eq_sqrt (n : ℕ) : Double.isqrt n = Nat.sqrt n :=
  Nat.eq_sqrt.mpr (Double.isqrtFuel_spec n n (Nat.lt_pow_self (by norm_num) n))

/-! ## The rounding is to the nearest point of the grid of doubles -/

/-- The integer chosen by `roundEven` is within 1/2 of its argument. -/
theorem Double.abs_roundEven_sub_le (q : ℚ) : |(Double.roundEven q : ℚ) - q| ≤ 1 / 2 := by
  have h1 : ((Rat.floor q : ℤ) : ℚ) ≤ q := Int.floor_le q
  have h2 : q < ((Rat.floor q : ℤ) : ℚ) + 1 := Int.lt_floor_add_one q
  unfold Double.roundEven
  simp only []
  rw [abs_le]
  split_ifs <;> push_cast <;> constructor <;> linarith

/-- The function `pow2` is the integer power of 2. -/
theorem Double.pow2_eq (e : ℤ) : Double.pow2 e = (2 : ℚ) ^ e := by
  unfold Double.pow2
  split_ifs with h
  · obtain ⟨n, rfl⟩ := Int.eq_ofNat_of_zero_le h
    simp
  · have h' : 0 ≤ -e := by omega
    obtain ⟨n, hn⟩ := Int.eq_ofNat_of_zero_le h'
    have he : e = -(n : ℤ) := by omega
    subst he
    simp

/-- The exponent of a positive `q` is the `e` with `2 ^ e ≤ q < 2 ^ (e + 1)`. -/
theorem Double.exponent_spec (q : ℚ) (hq : 0 < q) :
    (2 : ℚ) ^ Double.exponent q ≤ q ∧ q < (2 : ℚ) ^ (Double.exponent q + 1) := by
  have hn : 0 < q.num := Rat.num_pos.mpr hq
  have hd : 0 < q.den := q.den_pos
  have hnn : q.num.natAbs ≠ 0 := by omega
  have a1 : 2 ^ Nat.log2 q.num.natAbs ≤ q.num.natAbs := Nat.log2_self_le hnn
  have a2 : q.num.natAbs < 2 ^ (Nat.log2 q.num.natAbs + 1) := Nat.lt_log2_self
  have b1 : 2 ^ Nat.log2 q.den ≤ q.den := Nat.log2_self_le (by omega)
  have b2 : q.den < 2 ^ (Nat.log2 q.den + 1) := Nat.lt_log2_self
  have hqe : q = (q.num.natAbs : ℚ) / (q.den : ℚ) := by
    have : ((q.num.natAbs : ℤ) : ℚ) = (q.num : ℚ) := by
      rw [Int.natAbs_of_nonneg hn.le]
    rw [← Int.cast_natCast, this]
    exact (Rat.num_div_den q).symm
  have hdq : (0 : ℚ) < q.den := by exact_mod_cast hd
  have a1' : (2 : ℚ) ^ Nat.log2 q.num.natAbs ≤ q.num.natAbs := by exact_mod_cast a1
  have a2' : (q.num.natAbs : ℚ) < 2 ^ (Nat.log2 q.num.natAbs + 1) := by exact_mod_cast a2
  have b1' : (2 : ℚ) ^ Nat.log2 q.den ≤ q.den := by exact_mod_cast b1
  have b2' : (q.den : ℚ) < 2 ^ (Nat.log2 q.den + 1) := by exact_mod_cast b2
  unfold Double.exponent
  simp only [Double.log2_eq, Double.pow2_eq, not_lt.mpr hq.le, if_false]
  generalize Nat.log2 q.num.natAbs = a at a1' a2'
  generalize Nat.log2 q.den = b at b1' b2'
  have two_pos : ∀ k : ℕ, (0 : ℚ) < 2 ^ k := fun k => by positivity
  have up : q < (2 : ℚ) ^ ((a : ℤ) - b + 1) := by
    rw [show (a : ℤ) - b + 1 = ((a + 1 : ℕ) : ℤ) - (b : ℕ) by push_cast; ring,
      zpow_sub₀ (by norm_num), zpow_natCast, zpow_natCast, hqe, div_lt_div_iff₀ hdq (two_pos b)]
    calc (q.num.natAbs : ℚ) * 2 ^ b < 2 ^ (a + 1) * 2 ^ b := by
          apply mul_lt_mul_of_pos_right a2' (two_pos b)
      _ ≤ 2 ^ (a + 1) * q.den := by
          apply mul_le_mul_of_nonneg_left b1' (two_pos _).le
  have lo : (2 : ℚ) ^ ((a : ℤ) - b - 1) ≤ q := by
    rw [show (a : ℤ) - b - 1 = ((a : ℕ) : ℤ) - ((b + 1 : ℕ) : ℤ) by push_cast; ring,
      zpow_sub₀ (by norm_num), zpow_natCast, zpow_natCast, hqe, div_le_div_iff₀ (two_pos _) hdq]
    calc (2 : ℚ) ^ a * q.den ≤ 2 ^ a * 2 ^ (b + 1) := by
          apply mul_le_mul_of_nonneg_left b2'.le (two_pos _).le
      _ ≤ q.num.natAbs * 2 ^ (b + 1) := by
          apply mul_le_mul_of_nonneg_right a1' (two_pos _).le
  have key : ∀ e0 : ℤ, e0 = (a : ℤ) - b →
      (2 : ℚ) ^ (if (2 : ℚ) ^ e0 ≤ q then e0 else e0 - 1) ≤ q ∧
      q < (2 : ℚ) ^ ((if (2 : ℚ) ^ e0 ≤ q then e0 else e0 - 1) + 1) := by
    intro e0 he
    subst he
    split_ifs with h
    · exact ⟨h, up⟩
    · refine ⟨lo, ?_⟩
      rw [sub_add_cancel]
      exact not_le.mp h
  exact key _ rfl

theorem Double.pow2_pos (e : ℤ) : 0 < Double.pow2 e := by
  rw [Double.pow2_eq]
  positivity

/-- The rounding of a non-zero `q` is an integer multiple of the spacing around `q`
and differs from `q` by at most half of it. -/
theorem Double.round_spec (q : ℚ) (hq : q ≠ 0) :
    Double.round q = (Double.roundEven (q / Double.ulp q) : ℚ) * Double.ulp q ∧
    |Double.round q - q| ≤ Double.ulp q / 2 := by
  have hu : 0 < Double.ulp q := Double.pow2_pos _
  have h := Double.abs_roundEven_sub_le (q / Double.ulp q)
  have e : Double.round q = (Double.roundEven (q / Double.ulp q) : ℚ) * Double.ulp q := by
    unfold Double.round
    rw [if_neg hq]
  refine ⟨e, ?_⟩
  rw [e]
  have e2 : (Double.roundEven (q / Double.ulp q) : ℚ) * Double.ulp q - q
      = ((Double.roundEven (q / Double.ulp q) : ℚ) - q / Double.ulp q) * Double.ulp q := by
    field_simp
  rw [e2, abs_mul, abs_of_pos hu]
  calc |(Double.roundEven (q / Double.ulp q) : ℚ) - q / Double.ulp q| * Double.ulp q
      ≤ 1 / 2 * Double.ulp q := mul_le_mul_of_nonneg_right h hu.le
    _ = Double.ulp q / 2 := by ring

/-! ## Facts about the direction and the two parts of a frame -/

theorem pos_lengthSq_direction (f b l r : Bool) :
    (0 < (direction f b l r).lengthSq) ↔ uncancelled f b l r = true := by
  revert f b l r
  decide!

theorem lengthSq_direction_eq_zero (f b l r : Bool) :
    ((direction f b l r).lengthSq = 0) ↔ uncancelled f b l r = false := by
  revert f b l r
  decide!

theorem direction_eq_zero (f b l r : Bool) :
    (direction f b l r = zeroVector) ↔ uncancelled f b l r = false := by
  revert f b l r
  decide!


/-- With the player present the first part of the frame raises nothing, moves the
player only horizontally, leaves the jump variables alone and sets the animation
state as its two guarded assignments say. -/
theorem moveBlock_spec (s : State) (p : Player) (hp : s.player = some p) :
    (moveBlock s).error = none ∧
    (∃ q : Player, (moveBlock s).state.player = some q ∧ q.position.y = p.position.y ∧
      q.position.z = (if 0 < s.moveDirection.lengthSq
        then Double.add p.position.z (Double.mul moveSpeed s.moveDirection.z) else p.position.z) ∧
      q.position.x = (if 0 < s.moveDirection.lengthSq
        then Double.add p.position.x (Double.mul moveSpeed s.moveDirection.x) else p.position.x)) ∧
    (moveBlock s).state.isJumping = s.isJumping ∧
    (moveBlock s).state.yVelocity = s.yVelocity ∧
    (moveBlock s).state.moveDirection = s.moveDirection ∧
    (moveBlock s).state.playerAnimations = s.playerAnimations ∧
    (moveBlock s).state.currentAnimationState =
      (if 0 < s.moveDirection.lengthSq then
        (if s.playerAnimations.walk = true then AnimState.walk else s.currentAnimationState)
       else if s.playerAnimations.idle = true then AnimState.idle
       else s.currentAnimationState) := by
  unfold moveBlock
  rw [hp]
  dsimp only
  by_cases hm : 0 < s.moveDirection.lengthSq
  · have h0 : s.moveDirection.lengthSq ≠ 0 := ne_of_gt hm
    simp only [hm, h0, if_true, false_and, if_false]
    split_ifs <;> simp_all [Player.translateZ, Player.translateX]
  · simp only [hm, if_false]
    split_ifs <;> simp_all


/-- With the player present the second part of the frame raises nothing, changes only
the height of the player, integrates or lands the jump and sets the animation
state as its guarded assignments say. -/
theorem jumpBlock_spec (s : State) (p : Player) (deltaTime : ℚ) (hp : s.player = some p) :
    (jumpBlock s deltaTime).error = none ∧
    (∃ q : Player, (jumpBlock s deltaTime).state.player = some q ∧
      q.position.x = p.position.x ∧ q.position.z = p.position.z ∧
      q.position.y = (if s.isJumping = true then
        (if p.position.y + (s.yVelocity + gravity * deltaTime * 2) * deltaTime < 0 then 0
         else p.position.y + (s.yVelocity + gravity * deltaTime * 2) * deltaTime)
        else p.position.y)) ∧
    (jumpBlock s deltaTime).state.isJumping =
      (if s.isJumping = true then
        (if p.position.y + (s.yVelocity + gravity * deltaTime * 2) * deltaTime < 0 then false
         else true)
       else false) ∧
    (jumpBlock s deltaTime).state.yVelocity =
      (if s.isJumping = true then
        (if p.position.y + (s.yVelocity + gravity * deltaTime * 2) * deltaTime < 0 then 0
         else s.yVelocity + gravity * deltaTime * 2)
       else s.yVelocity) ∧
    (jumpBlock s deltaTime).state.moveDirection = s.moveDirection ∧
    (jumpBlock s deltaTime).state.playerAnimations = s.playerAnimations ∧
    (jumpBlock s deltaTime).state.currentAnimationState =
      (if s.isJumping = true then
        (if p.position.y + (s.yVelocity + gravity * deltaTime * 2) * deltaTime < 0 then
          (if 0 < s.moveDirection.lengthSq ∧ s.playerAnimations.walk = true then
            AnimState.walk
           else if s.playerAnimations.idle = true then AnimState.idle
           else s.currentAnimationState)
         else if s.playerAnimations.jump = true then AnimState.jump
         else s.currentAnimationState)
       else if 0 < s.moveDirection.lengthSq ∧ s.playerAnimations.walk = true then
        AnimState.walk
       else if s.moveDirection.lengthSq = 0 ∧ s.playerAnimations.idle = true then
        AnimState.idle
       else s.currentAnimationState) := by
  unfold jumpBlock
  rw [hp]
  dsimp only
  by_cases hj : s.isJumping = true
  · simp only [hj, if_true]
    by_cases hy : p.position.y + (s.yVelocity + gravity * deltaTime * 2) * deltaTime < 0
    · simp only [hy, if_true]
      split_ifs <;> simp_all
    · simp only [hy, if_false]
      split_ifs <;> simp_all
  · simp only [hj, if_false]
    split_ifs <;> simp_all


theorem moveBlock_flags (s : State) :
    (moveBlock s).state.moveForward = s.moveForward ∧
    (moveBlock s).state.moveBackward = s.moveBackward ∧
    (moveBlock s).state.moveLeft = s.moveLeft ∧
    (moveBlock s).state.moveRight = s.moveRight := by
  unfold moveBlock
  cases s.player <;> dsimp only <;> split_ifs <;> simp

theorem jumpBlock_flags (s : State) (deltaTime : ℚ) :
    (jumpBlock s deltaTime).state.moveForward = s.moveForward ∧
    (jumpBlock s deltaTime).state.moveBackward = s.moveBackward ∧
    (jumpBlock s deltaTime).state.moveLeft = s.moveLeft ∧
    (jumpBlock s deltaTime).state.moveRight = s.moveRight := by
  unfold jumpBlock
  cases s.player <;> dsimp only <;> split_ifs <;> simp

theorem updatePlayerMovement_eq (s : State) (p : Player) (deltaTime : ℚ)
    (hp : s.player = some p) :
    updatePlayerMovement s deltaTime
      = jumpBlock (moveBlock (setMoveDirection s)).state deltaTime := by
  have h := (moveBlock_spec (setMoveDirection s) p hp).1
  unfold updatePlayerMovement
  simp only [h]

theorem updatePlayerMovement_flags (s : State) (deltaTime : ℚ) :
    (updatePlayerMovement s deltaTime).state.moveForward = s.moveForward ∧
    (updatePlayerMovement s deltaTime).state.moveBackward = s.moveBackward ∧
    (updatePlayerMovement s deltaTime).state.moveLeft = s.moveLeft ∧
    (updatePlayerMovement s deltaTime).state.moveRight = s.moveRight := by
  have h1 := moveBlock_flags (setMoveDirection s)
  have h2 := jumpBlock_flags (moveBlock (setMoveDirection s)).state deltaTime
  unfold updatePlayerMovement
  dsimp only
  split
  · exact h1
  · exact ⟨h2.1.trans h1.1, h2.2.1.trans h1.2.1, h2.2.2.1.trans h1.2.2.1,
      h2.2.2.2.trans h1.2.2.2⟩


theorem anim_combine (m w i jc j : Bool) (c : AnimState) (P : Prop) [Decidable P] :
    (if j = true then
        if P then
          if m = true ∧ w = true then AnimState.walk
          else
            if i = true then AnimState.idle
            else if m = true then if w = true then AnimState.walk else c
              else if i = true then AnimState.idle else c
        else
          if jc = true then AnimState.jump
          else if m = true then if w = true then AnimState.walk else c
            else if i = true then AnimState.idle else c
      else
        if m = true ∧ w = true then AnimState.walk
        else
          if m = false ∧ i = true then AnimState.idle
          else if m = true then if w = true then AnimState.walk else c
            else if i = true then AnimState.idle else c) =
      if j = true then
        if P then if m = true ∧ w = true then AnimState.walk
          else if i = true then AnimState.idle else c
        else
          if jc = true then AnimState.jump
          else if m = true then if w = true then AnimState.walk else c
            else if i = true then AnimState.idle else c
      else if m = true then if w = true then AnimState.walk else c
        else if i = true then AnimState.idle else c := by
  cases m <;> cases w <;> cases i <;> cases jc <;> cases j <;> by_cases h : P <;> simp [h]

/-- One frame with the player present, field by field. -/
theorem updatePlayerMovement_spec (s : State) (p : Player) (deltaTime : ℚ)
    (hp : s.player = some p) :
    (updatePlayerMovement s deltaTime).error = none ∧
    (∃ q : Player, (updatePlayerMovement s deltaTime).state.player = some q ∧
      q.position.x = (if s.intent = true then Double.add p.position.x (Double.mul moveSpeed
        (direction s.moveForward s.moveBackward s.moveLeft s.moveRight).x)
        else p.position.x) ∧
      q.position.z = (if s.intent = true then Double.add p.position.z (Double.mul moveSpeed
        (direction s.moveForward s.moveBackward s.moveLeft s.moveRight).z)
        else p.position.z) ∧
      q.position.y = (if s.isJumping = true then
        (if integratedHeight s p deltaTime < 0 then 0 else integratedHeight s p deltaTime)
        else p.position.y)) ∧
    (updatePlayerMovement s deltaTime).state.isJumping =
      (if s.isJumping = true then
        (if integratedHeight s p deltaTime < 0 then false else true) else false) ∧
    (updatePlayerMovement s deltaTime).state.yVelocity =
      (if s.isJumping = true then
        (if integratedHeight s p deltaTime < 0 then 0
         else s.yVelocity + gravity * deltaTime * 2)
       else s.yVelocity) ∧
    (updatePlayerMovement s deltaTime).state.moveDirection =
      direction s.moveForward s.moveBackward s.moveLeft s.moveRight ∧
    (updatePlayerMovement s deltaTime).state.playerAnimations = s.playerAnimations ∧
    (updatePlayerMovement s deltaTime).state.currentAnimationState =
      (if s.isJumping = true then
        (if integratedHeight s p deltaTime < 0 then
          (if s.intent = true ∧ s.playerAnimations.walk = true then AnimState.walk
           else if s.playerAnimations.idle = true then AnimState.idle
           else s.currentAnimationState)
         else if s.playerAnimations.jump = true then AnimState.jump
         else if s.intent = true then
          (if s.playerAnimations.walk = true then AnimState.walk else s.currentAnimationState)
         else if s.playerAnimations.idle = true then AnimState.idle
         else s.currentAnimationState)
       else if s.intent = true then
        (if s.playerAnimations.walk = true then AnimState.walk else s.currentAnimationState)
       else if s.playerAnimations.idle = true then AnimState.idle
       else s.currentAnimationState) := by
  rw [updatePlayerMovement_eq s p deltaTime hp]
  have hp1 : (setMoveDirection s).player = some p := hp
  obtain ⟨-, ⟨q, hq, hqy, hqz, hqx⟩, hj, hv, hd, ha, hc⟩ :=
    moveBlock_spec (setMoveDirection s) p hp1
  obtain ⟨he, ⟨q2, hq2, hx2, hz2, hy2⟩, hj2, hv2, hd2, ha2, hc2⟩ :=
    jumpBlock_spec (moveBlock (setMoveDirection s)).state q deltaTime hq
  have e1 : (setMoveDirection s).moveDirection
      = direction s.moveForward s.moveBackward s.moveLeft s.moveRight := rfl
  have e2 : (setMoveDirection s).isJumping = s.isJumping := rfl
  have e3 : (setMoveDirection s).yVelocity = s.yVelocity := rfl
  have e4 : (setMoveDirection s).playerAnimations = s.playerAnimations := rfl
  have e5 : (setMoveDirection s).currentAnimationState = s.currentAnimationState := rfl
  rw [e1] at hd hc hqz hqx
  rw [e2] at hj
  rw [e3] at hv
  rw [e4] at ha hc
  rw [e5] at hc
  simp only [pos_lengthSq_direction] at hc hqz hqx
  simp only [hj, hv, hqy] at hy2 hj2 hv2
  simp only [hj, hv, hd, ha, hqy, hc, pos_lengthSq_direction,
    lengthSq_direction_eq_zero] at hc2
  refine ⟨he, ⟨q2, hq2, ?_, ?_, hy2⟩, hj2, hv2, hd2.trans hd, ha2.trans ha, ?_⟩
  · rw [hx2, hqx]; rfl
  · rw [hz2, hqz]; rfl
  · rw [hc2]
    unfold State.intent integratedHeight
    generalize uncancelled s.moveForward s.moveBackward s.moveLeft s.moveRight = m
    generalize s.playerAnimations.walk = w
    generalize s.playerAnimations.idle = i
    generalize s.playerAnimations.jump = jc
    generalize s.currentAnimationState = c
    generalize s.isJumping = j
    exact anim_combine m w i jc j c _

/-! ## Jump impulse -/

/-- C2. A Space key-down while no jump is in progress sets `yVelocity` to exactly 5
and `isJumping` to true and changes nothing else; a Space key-down while a jump
is in progress leaves the whole state unchanged. -/
theorem space_keyDown_impulse (s : State) :
    (s.isJumping = false →
      (onKeyDown KeyCode.space s).yVelocity = 5 ∧
      (onKeyDown KeyCode.space s).isJumping = true ∧
      onKeyDown KeyCode.space s = { s with isJumping := true, yVelocity := 5 }) ∧
    (s.isJumping = true → onKeyDown KeyCode.space s = s) := by
  constructor
  · intro h
    simp [onKeyDown, h]
  · intro h
    simp [onKeyDown, h]

/-- Both cases of C2 on the loaded state: the first Space key-down starts the jump,
the second one changes nothing. -/
theorem space_keyDown_impulse_witness :
    (loadedState.isJumping = false ∧
      (onKeyDown KeyCode.space loadedState).yVelocity = 5 ∧
      (onKeyDown KeyCode.space loadedState).isJumping = true) ∧
    ((onKeyDown KeyCode.space loadedState).isJumping = true ∧
      onKeyDown KeyCode.space (onKeyDown KeyCode.space loadedState)
        = onKeyDown KeyCode.space loadedState) :=
  ⟨⟨by decide!,
      ((space_keyDown_impulse loadedState).1 (by decide!)).1,
      ((space_keyDown_impulse loadedState).1 (by decide!)).2.1⟩,
    ⟨by decide!,
      (space_keyDown_impulse (onKeyDown KeyCode.space loadedState)).2 (by decide!)⟩⟩

/-! ## Animation state after a frame -/

/-- C3. With the idle, walk and jump clips loaded, a frame raises nothing and ends
in Jump when a jump was in progress at its start and the integrated height is not
below 0 (no landing); otherwise it ends in Walk when the normalised direction is
not the zero vector and in Idle when it is.  This holds for every frame time. -/
theorem animation_state_after_frame (s : State) (p : Player) (deltaTime : ℚ)
    (hp : s.player = some p) (hclips : s.playerAnimations = ⟨true, true, true⟩) :
    (updatePlayerMovement s deltaTime).error = none ∧
    (updatePlayerMovement s deltaTime).state.currentAnimationState =
      (if s.isJumping = true ∧ ¬ (integratedHeight s p deltaTime < 0) then AnimState.jump
       else if direction s.moveForward s.moveBackward s.moveLeft s.moveRight ≠ zeroVector then
        AnimState.walk
       else AnimState.idle) := by
  obtain ⟨he, -, -, -, -, -, hc⟩ := updatePlayerMovement_spec s p deltaTime hp
  refine ⟨he, ?_⟩
  rw [hc, hclips]
  simp only [ne_eq, direction_eq_zero, State.intent]
  cases uncancelled s.moveForward s.moveBackward s.moveLeft s.moveRight <;>
    cases s.isJumping <;>
    by_cases h : integratedHeight s p deltaTime < 0 <;> simp [h]

/-- An instance of C3: the frame that follows a Space key-down in the loaded state,
with `deltaTime = 1/10`, ends in Jump. -/
theorem animation_state_after_frame_witness :
    (updatePlayerMovement (onKeyDown KeyCode.space loadedState) (1 / 10)).error = none ∧
    (updatePlayerMovement (onKeyDown KeyCode.space loadedState)
      (1 / 10)).state.currentAnimationState = AnimState.jump := by
  have h := animation_state_after_frame (onKeyDown KeyCode.space loadedState)
    ⟨⟨0, 0, 0⟩⟩ (1 / 10) (by decide!) (by decide!)
  refine ⟨h.1, h.2.trans ?_⟩
  decide!

/-! ## Frames without a player -/

/-- C10. Before `character.glb` has loaded, a frame with the forward intent active
raises a TypeError, and so does a frame with a jump in progress; a frame with no
intent and no jump raises nothing. -/
theorem frame_without_player_raises :
    (onKeyDown KeyCode.keyW initialState).player = none ∧
    (updatePlayerMovement (onKeyDown KeyCode.keyW initialState) (1 / 60)).error
      = some JsError.typeError ∧
    (updatePlayerMovement (onKeyDown KeyCode.space initialState) (1 / 60)).error
      = some JsError.typeError ∧
    (updatePlayerMovement initialState (1 / 60)).error = none := by
  decide!

/-! ## Commands issued while the animation state stays the same -/

/-- C5. In the loaded state, the second frame after a Space key-down (frames of
1/10 s) starts in Jump with the jump in progress and ends in Jump with the jump
still in progress, and yet issues nine commands: the first part of the frame
fades the idle clip in, the second part fades the jump clip in again. -/
theorem jump_frame_reissues_commands :
    (frames (1 / 10) 1 (onKeyDown KeyCode.space loadedState)).currentAnimationState
      = AnimState.jump ∧
    (frames (1 / 10) 1 (onKeyDown KeyCode.space loadedState)).isJumping = true ∧
    (updatePlayerMovement (frames (1 / 10) 1 (onKeyDown KeyCode.space loadedState))
      (1 / 10)).error = none ∧
    (updatePlayerMovement (frames (1 / 10) 1 (onKeyDown KeyCode.space loadedState))
      (1 / 10)).state.currentAnimationState = AnimState.jump ∧
    (updatePlayerMovement (frames (1 / 10) 1 (onKeyDown KeyCode.space loadedState))
      (1 / 10)).state.isJumping = true ∧
    (updatePlayerMovement (frames (1 / 10) 1 (onKeyDown KeyCode.space loadedState))
      (1 / 10)).state.clipLog
      = (frames (1 / 10) 1 (onKeyDown KeyCode.space loadedState)).clipLog ++
        [Cmd.fadeOut AnimState.walk (1 / 5), Cmd.reset AnimState.idle,
          Cmd.fadeIn AnimState.idle (1 / 5), Cmd.play AnimState.idle,
          Cmd.fadeOut AnimState.idle (1 / 5), Cmd.fadeOut AnimState.walk (1 / 5),
          Cmd.reset AnimState.jump, Cmd.fadeIn AnimState.jump (1 / 5),
          Cmd.play AnimState.jump] := by
  decide!

/-! ## Transitions to a state whose clip is absent -/

theorem moveBlock_loaded (s : State) :
    (moveBlock s).state.playerAnimations = s.playerAnimations ∧
    ((moveBlock s).state.currentAnimationState = s.currentAnimationState ∨
      s.playerAnimations.loaded (moveBlock s).state.currentAnimationState = true) ∧
    (s.playerAnimations = ⟨false, false, false⟩ →
      (moveBlock s).state.currentAnimationState = s.currentAnimationState ∧
      (moveBlock s).state.clipLog = s.clipLog) := by
  refine ⟨?_, ?_, fun h => ?_⟩
  · unfold moveBlock
    cases s.player <;> dsimp only <;> split_ifs <;> simp
  · unfold moveBlock
    cases s.player <;> dsimp only <;> split_ifs <;> simp_all [PlayerAnimations.loaded]
  · unfold moveBlock
    cases s.player <;> dsimp only <;> split_ifs <;> simp_all

theorem jumpBlock_loaded (s : State) (deltaTime : ℚ) :
    (jumpBlock s deltaTime).state.playerAnimations = s.playerAnimations ∧
    ((jumpBlock s deltaTime).state.currentAnimationState = s.currentAnimationState ∨
      s.playerAnimations.loaded (jumpBlock s deltaTime).state.currentAnimationState = true) ∧
    (s.playerAnimations = ⟨false, false, false⟩ →
      (jumpBlock s deltaTime).state.currentAnimationState = s.currentAnimationState ∧
      (jumpBlock s deltaTime).state.clipLog = s.clipLog) := by
  refine ⟨?_, ?_, fun h => ?_⟩
  · unfold jumpBlock
    cases s.player <;> dsimp only <;> split_ifs <;> simp
  · unfold jumpBlock
    cases s.player <;> dsimp only <;> split_ifs <;> simp_all [PlayerAnimations.loaded]
  · unfold jumpBlock
    cases s.player <;> dsimp only <;> split_ifs <;> simp_all

/-- C4, as the code has it, refuting the claim.  With the player loaded and no clip
loaded, a grounded frame with the forward intent active ends with
`currentAnimationState` still `'idle'`, not `'walk'`, and a frame in which a jump
is in progress and does not land ends with it still `'idle'`, not `'jump'`. -/
theorem absent_clip_blocks_transition :
    (onPlayerLoaded ⟨false, false, false⟩ initialState).playerAnimations
      = ⟨false, false, false⟩ ∧
    (updatePlayerMovement (onKeyDown KeyCode.keyW
      (onPlayerLoaded ⟨false, false, false⟩ initialState)) (1 / 10)).error = none ∧
    (updatePlayerMovement (onKeyDown KeyCode.keyW
      (onPlayerLoaded ⟨false, false, false⟩ initialState))
        (1 / 10)).state.currentAnimationState = AnimState.idle ∧
    ¬ ((updatePlayerMovement (onKeyDown KeyCode.keyW
      (onPlayerLoaded ⟨false, false, false⟩ initialState))
        (1 / 10)).state.currentAnimationState = AnimState.walk) ∧
    (updatePlayerMovement (onKeyDown KeyCode.space
      (onPlayerLoaded ⟨false, false, false⟩ initialState)) (1 / 10)).state.isJumping = true ∧
    ¬ ((updatePlayerMovement (onKeyDown KeyCode.space
      (onPlayerLoaded ⟨false, false, false⟩ initialState))
        (1 / 10)).state.currentAnimationState = AnimState.jump) := by
  decide!

/-- C4, amended.  A frame sets `currentAnimationState` only to a state whose clip is
loaded: after the frame it is either what it was at the start or a state whose
clip is loaded.  With no clip loaded at all, every frame leaves
`currentAnimationState` unchanged and issues no clip command. -/
theorem state_set_only_to_loaded_clip (s : State) (deltaTime : ℚ) :
    ((updatePlayerMovement s deltaTime).state.currentAnimationState = s.currentAnimationState ∨
      s.playerAnimations.loaded
        (updatePlayerMovement s deltaTime).state.currentAnimationState = true) ∧
    (s.playerAnimations = ⟨false, false, false⟩ →
      (updatePlayerMovement s deltaTime).state.currentAnimationState
        = s.currentAnimationState ∧
      (updatePlayerMovement s deltaTime).state.clipLog = s.clipLog) := by
  obtain ⟨ha, hc, hn⟩ := moveBlock_loaded (setMoveDirection s)
  obtain ⟨-, hc2, hn2⟩ := jumpBlock_loaded (moveBlock (setMoveDirection s)).state deltaTime
  rw [ha] at hc2 hn2
  have e1 : (setMoveDirection s).playerAnimations = s.playerAnimations := rfl
  have e2 : (setMoveDirection s).currentAnimationState = s.currentAnimationState := rfl
  have e3 : (setMoveDirection s).clipLog = s.clipLog := rfl
  rw [e1] at hc hn hc2 hn2
  rw [e2] at hc hn
  rw [e3] at hn
  unfold updatePlayerMovement
  dsimp only
  split
  · exact ⟨hc, hn⟩
  · refine ⟨?_, fun h => ?_⟩
    · rcases hc2 with h2 | h2
      · rw [h2]
        exact hc
      · exact Or.inr h2
    · obtain ⟨a1, a2⟩ := hn h
      obtain ⟨b1, b2⟩ := hn2 h
      exact ⟨b1.trans a1, b2.trans a2⟩

/-- An instance of C4 as amended: on the loaded player without clips and with the
forward intent active, the frame leaves the state `'idle'` and the log of clip
commands empty. -/
theorem state_set_only_to_loaded_clip_witness :
    (updatePlayerMovement (onKeyDown KeyCode.keyW
      (onPlayerLoaded ⟨false, false, false⟩ initialState))
        (1 / 10)).state.currentAnimationState = AnimState.idle ∧
    (updatePlayerMovement (onKeyDown KeyCode.keyW
      (onPlayerLoaded ⟨false, false, false⟩ initialState)) (1 / 10)).state.clipLog = [] :=
  (state_set_only_to_loaded_clip (onKeyDown KeyCode.keyW
    (onPlayerLoaded ⟨false, false, false⟩ initialState)) (1 / 10)).2 (by decide!)

/-! ## Height of the player -/

theorem heightInv_onKeyDown (s : State) (code : KeyCode) (h : HeightInv s) :
    HeightInv (onKeyDown code s) := by
  obtain ⟨p, hp, hy, hg⟩ := h
  cases code <;> try exact ⟨p, hp, hy, hg⟩
  unfold onKeyDown
  dsimp only
  split_ifs with hj
  · exact ⟨p, hp, hy, fun h => by simp at h⟩
  · exact ⟨p, hp, hy, hg⟩

theorem heightInv_onKeyUp (s : State) (code : KeyCode) (h : HeightInv s) :
    HeightInv (onKeyUp code s) := by
  obtain ⟨p, hp, hy, hg⟩ := h
  cases code <;> exact ⟨p, hp, hy, hg⟩

/-- A frame from a state with the height invariant: it raises nothing, keeps the
invariant, and lands whenever the integrated height is below 0. -/
theorem heightInv_frame (s : State) (deltaTime : ℚ) (h : HeightInv s) :
    (updatePlayerMovement s deltaTime).error = none ∧
    HeightInv (updatePlayerMovement s deltaTime).state ∧
    ∃ p q : Player, s.player = some p ∧
      (updatePlayerMovement s deltaTime).state.player = some q ∧
      (integratedHeight s p deltaTime < 0 →
        q.position.y = 0 ∧ (updatePlayerMovement s deltaTime).state.isJumping = false ∧
        (updatePlayerMovement s deltaTime).state.yVelocity = 0) := by
  obtain ⟨p, hp, hy, hg⟩ := h
  obtain ⟨he, ⟨q, hq, -, -, hqy⟩, hj, hv, -, -, -⟩ := updatePlayerMovement_spec s p deltaTime hp
  by_cases hjump : s.isJumping = true
  · simp only [hjump, if_true] at hqy hj hv
    by_cases hlt : integratedHeight s p deltaTime < 0
    · simp only [hlt, if_true] at hqy hj hv
      exact ⟨he, ⟨q, hq, by rw [hqy], fun _ => ⟨hqy, hv⟩⟩, p, q, hp, hq,
        fun _ => ⟨hqy, hj, hv⟩⟩
    · simp only [hlt, if_false] at hqy hj hv
      refine ⟨he, ⟨q, hq, ?_, fun h => ?_⟩, p, q, hp, hq, fun h => absurd h hlt⟩
      · rw [hqy]
        exact not_lt.mp hlt
      · rw [hj] at h
        exact absurd h (by simp)
  · have hjf : s.isJumping = false := by simpa using hjump
    simp only [hjf, Bool.false_eq_true, if_false] at hqy hj hv
    obtain ⟨hy0, hv0⟩ := hg hjf
    exact ⟨he, ⟨q, hq, by rw [hqy, hy0], fun _ => ⟨by rw [hqy, hy0], by rw [hv, hv0]⟩⟩,
      p, q, hp, hq, fun _ => ⟨by rw [hqy, hy0], hj, by rw [hv, hv0]⟩⟩

theorem heightInv_step (s : State) (input : Input) (h : HeightInv s) :
    HeightInv (step s input) := by
  cases input with
  | keyDown code => exact heightInv_onKeyDown s code h
  | keyUp code => exact heightInv_onKeyUp s code h
  | frame deltaTime => exact (heightInv_frame s deltaTime h).2.1

theorem heightInv_run (inputs : List Input) (s : State) (h : HeightInv s) :
    HeightInv (run s inputs) := by
  induction inputs generalizing s with
  | nil => exact h
  | cons input rest ih => exact ih (step s input) (heightInv_step s input h)

/-- C1. Start from a grounded state: player present with `position.y = 0` and
`yVelocity = 0`, as when `isJumping = false` initially.  After any sequence of key-downs, key-ups
and frames, a further frame of any frame time raises nothing and ends with
`position.y ≥ 0`; and when the integrated height
`position.y + (yVelocity + gravity * deltaTime * 2) * deltaTime` of that frame
is below 0, the frame ends with `position.y = 0`, `isJumping = false` and
`yVelocity = 0`. -/
theorem height_never_negative (s : State) (p : Player) (hp : s.player = some p)
    (hy : p.position.y = 0) (hv : s.yVelocity = 0)
    (inputs : List Input) (deltaTime : ℚ) :
    (updatePlayerMovement (run s inputs) deltaTime).error = none ∧
    ∃ p0 p1 : Player, (run s inputs).player = some p0 ∧
      (updatePlayerMovement (run s inputs) deltaTime).state.player = some p1 ∧
      0 ≤ p1.position.y ∧
      (integratedHeight (run s inputs) p0 deltaTime < 0 →
        p1.position.y = 0 ∧
        (updatePlayerMovement (run s inputs) deltaTime).state.isJumping = false ∧
        (updatePlayerMovement (run s inputs) deltaTime).state.yVelocity = 0) := by
  have h0 : HeightInv s := ⟨p, hp, by rw [hy], fun _ => ⟨hy, hv⟩⟩
  obtain ⟨he, ⟨q, hq, hq0, -⟩, p0, p1, hp0, hp1, hland⟩ :=
    heightInv_frame (run s inputs) deltaTime (heightInv_run inputs s h0)
  refine ⟨he, p0, p1, hp0, hp1, ?_, hland⟩
  rw [hp1] at hq
  cases hq
  exact hq0

/-- An instance of C1: the loaded state, a Space key-down and four frames of 1/10 s,
followed by a fifth frame whose integrated height is below 0 and which ends on
the ground with the jump over. -/
theorem height_never_negative_witness :
    ∃ p1 : Player,
      (updatePlayerMovement (run loadedState
        [Input.keyDown KeyCode.space, Input.frame (1 / 10), Input.frame (1 / 10),
          Input.frame (1 / 10), Input.frame (1 / 10)]) (1 / 10)).state.player = some p1 ∧
      p1.position.y = 0 ∧
      (updatePlayerMovement (run loadedState
        [Input.keyDown KeyCode.space, Input.frame (1 / 10), Input.frame (1 / 10),
          Input.frame (1 / 10), Input.frame (1 / 10)]) (1 / 10)).state.isJumping = false := by
  obtain ⟨-, p0, p1, hp0, hp1, -, hland⟩ :=
    height_never_negative loadedState ⟨⟨0, 0, 0⟩⟩ (by decide!) rfl
      (by decide!)
      [Input.keyDown KeyCode.space, Input.frame (1 / 10), Input.frame (1 / 10),
        Input.frame (1 / 10), Input.frame (1 / 10)] (1 / 10)
  have e : (run loadedState
      [Input.keyDown KeyCode.space, Input.frame (1 / 10), Input.frame (1 / 10),
        Input.frame (1 / 10), Input.frame (1 / 10)]).player
      = some ⟨⟨0, 1 / 25, 0⟩⟩ := by decide!
  rw [e] at hp0
  cases hp0
  have hlt : integratedHeight (run loadedState
      [Input.keyDown KeyCode.space, Input.frame (1 / 10), Input.frame (1 / 10),
        Input.frame (1 / 10), Input.frame (1 / 10)]) ⟨⟨0, 1 / 25, 0⟩⟩
      (1 / 10) < 0 := by decide!
  exact ⟨p1, hp1, (hland hlt).1, (hland hlt).2.1⟩

/-! ## Magnitude of the direction -/

/-- C9, as the code has it, refuting the claim.  With forward and left active the
normalised direction has squared length `1 - 2^-52` (0.9999999999999998) and
magnitude `1 - 2^-53` (0.9999999999999999): neither 0 nor 1. -/
theorem diagonal_magnitude_below_one :
    (direction true false true false).lengthSq = 4503599627370495 / 4503599627370496 ∧
    (direction true false true false).length = 9007199254740991 / 9007199254740992 ∧
    ¬ ((direction true false true false).length = 0 ∨
      (direction true false true false).length = 1) ∧
    ¬ ((direction true false true false).lengthSq = 0 ∨
      (direction true false true false).lengthSq = 1) := by
  decide!

/-- C9, amended.  For each of the 16 settings of the four intent flags: the vector
built before normalisation has x = right - left and z = backward - forward; the
normalised direction is that vector times 1 when at most one axis is left, and
times 0.7071067811865475 (the double `1 / Math.sqrt(2)`) when both axes are left
(a diagonal).  Its magnitude is exactly 0 (the zero vector) when the intents
cancel or none is active, exactly 1 when one axis is left, and
0.9999999999999999 on a diagonal, so never more than 1; its squared length is 0,
1 and 0.9999999999999998 in the three cases.  The doubles taken for `√2` and for
the root of 0.9999999999999998 are within half a unit in the last place of the
roots. -/
theorem direction_magnitude (f b l r : Bool) :
    rawDirection f b l r
      = ⟨(if r then 1 else 0) - (if l then 1 else 0), 0,
          (if b then 1 else 0) - (if f then 1 else 0)⟩ ∧
    direction f b l r
      = ⟨(rawDirection f b l r).x *
            (if (f != b) && (l != r) then 1592262918131443 / 2251799813685248 else 1), 0,
          (rawDirection f b l r).z *
            (if (f != b) && (l != r) then 1592262918131443 / 2251799813685248 else 1)⟩ ∧
    (direction f b l r).length
      = (if uncancelled f b l r then
          (if (f != b) && (l != r) then 9007199254740991 / 9007199254740992 else 1)
         else 0) ∧
    (direction f b l r).lengthSq
      = (if uncancelled f b l r then
          (if (f != b) && (l != r) then 4503599627370495 / 4503599627370496 else 1)
         else 0) ∧
    0 ≤ (direction f b l r).length ∧ (direction f b l r).length ≤ 1 ∧
    ((direction f b l r = zeroVector) ↔ uncancelled f b l r = false) ∧
    Double.div 1 (Double.sqrt 2) = 1592262918131443 / 2251799813685248 ∧
    (Double.sqrt 2 - Double.pow2 (-53)) * (Double.sqrt 2 - Double.pow2 (-53)) < 2 ∧
    2 < (Double.sqrt 2 + Double.pow2 (-53)) * (Double.sqrt 2 + Double.pow2 (-53)) ∧
    (9007199254740991 / 9007199254740992 - Double.pow2 (-54))
        * (9007199254740991 / 9007199254740992 - Double.pow2 (-54))
      < (4503599627370495 / 4503599627370496 : ℚ) ∧
    (4503599627370495 / 4503599627370496 : ℚ)
      < (9007199254740991 / 9007199254740992 + Double.pow2 (-54))
        * (9007199254740991 / 9007199254740992 + Double.pow2 (-54)) := by
  revert f b l r
  decide!

/-! ## Dialogue of the targeted NPC -/

/-- C6.  A frame of `checkNPCInteraction` whose raycast hits an object of an NPC
raises a TypeError and leaves the state as it was: `currentNPC` is not set and
`showNPCDialogue` is not called.  On the initial state with a hit on
`gymNpcRecord`, and after any frames from the initial state, `currentNPC` is
still null and no dialogue call has been made. -/
theorem hit_frame_raises (s : State) (owner : NPC) (rays : List Raycast) :
    (checkNPCInteraction (Raycast.hit owner) s).error = some JsError.typeError ∧
    (checkNPCInteraction (Raycast.hit owner) s).state = s ∧
    (checkNPCInteraction (Raycast.hit gymNpcRecord) initialState).state.currentNPC = none ∧
    (checkNPCInteraction (Raycast.hit gymNpcRecord) initialState).state.dialogueLog = [] ∧
    (interactionFrames initialState rays).currentNPC = none ∧
    (interactionFrames initialState rays).dialogueLog = [] := by
  refine ⟨rfl, rfl, rfl, rfl, ?_⟩
  have key : ∀ (t : State), t.currentNPC = none → t.dialogueLog = [] →
      (interactionFrames t rays).currentNPC = none ∧
      (interactionFrames t rays).dialogueLog = [] := by
    induction rays with
    | nil => exact fun t h1 h2 => ⟨h1, h2⟩
    | cons ray rest ih =>
      intro t h1 h2
      have e : (checkNPCInteraction ray t).state = t := by
        cases ray with
        | hit o => rfl
        | noHit => simp [checkNPCInteraction, h1]
      unfold interactionFrames
      rw [List.foldl_cons, e]
      exact ih t h1 h2
  exact key initialState rfl rfl

/-! ## Walking forward -/

theorem direction_forward : direction true false false false = ⟨0, 0, -1⟩ := by
  decide!

theorem moveSpeed_mul_neg_one : Double.mul moveSpeed (-1) = -moveSpeed := by
  decide!

theorem Double.mul_zero (a : ℚ) : Double.mul a 0 = 0 := by
  simp [Double.mul, Double.round]

theorem forwardInv_frame (p : Player) (k : ℕ) (s : State) (deltaTime : ℚ)
    (hx : Double.round p.position.x = p.position.x) (h : ForwardInv p k s) :
    (updatePlayerMovement s deltaTime).error = none ∧
    (updatePlayerMovement s deltaTime).state.currentAnimationState = AnimState.walk ∧
    ForwardInv p (k + 1) (updatePlayerMovement s deltaTime).state := by
  obtain ⟨hf, hb, hl, hr, hj, hw, q, hq, hqx, hy, hz⟩ := h
  obtain ⟨he, ⟨q1, hq1, hx1, hz1, hy1⟩, hj1, -, -, ha1, hc1⟩ :=
    updatePlayerMovement_spec s q deltaTime hq
  obtain ⟨f1, f2, f3, f4⟩ := updatePlayerMovement_flags s deltaTime
  have hi : s.intent = true := by
    unfold State.intent
    rw [hf, hb, hl, hr]
    rfl
  simp only [hf, hb, hl, hr, hj, hi, hw, direction_forward, if_true,
    Bool.false_eq_true, if_false] at hx1 hz1 hy1 hj1 hc1
  refine ⟨he, hc1, f1.trans hf, f2.trans hb, f3.trans hl, f4.trans hr, hj1, ?_, q1, hq1,
    ?_, hy1.trans hy, ?_⟩
  · rw [ha1]
    exact hw
  · rw [hx1, Double.mul_zero, hqx]
    unfold Double.add
    rw [add_zero]
    exact hx
  · rw [hz1, hz]
    rfl

theorem forwardInv_framesOf (p : Player) (hx : Double.round p.position.x = p.position.x)
    (deltaTimes : List ℚ) (k : ℕ) (s : State)
    (h : ForwardInv p k s) : ForwardInv p (k + deltaTimes.length) (framesOf s deltaTimes) := by
  induction deltaTimes generalizing s k with
  | nil => exact h
  | cons deltaTime rest ih =>
    have h1 := (forwardInv_frame p k s deltaTime hx h).2.2
    have h2 := ih (k + 1) _ h1
    rw [List.length_cons, show k + (rest.length + 1) = k + 1 + rest.length by omega]
    exact h2

/-- C8, as the code has it, refuting the claim.  In the loaded state with W held
down, six frames of 1/10 s leave `position.z` at the double -0.6, which is
neither -6 times the double 0.1 nor the double product `6 * 0.1`
(0.6000000000000001) negated, nor -6/10. -/
theorem six_frames_not_six_times_moveSpeed :
    (framesOf (onKeyDown KeyCode.keyW loadedState)
      [1 / 10, 1 / 10, 1 / 10, 1 / 10, 1 / 10, 1 / 10]).player
      = some ⟨⟨0, 0, -5404319552844595 / 9007199254740992⟩⟩ ∧
    (-5404319552844595 / 9007199254740992 : ℚ) ≠ -(6 * moveSpeed) ∧
    (-5404319552844595 / 9007199254740992 : ℚ) ≠ -(Double.mul 6 moveSpeed) ∧
    (-5404319552844595 / 9007199254740992 : ℚ) ≠ -(6 * (1 / 10)) ∧
    Double.mul 6 moveSpeed = 1351079888211149 / 2251799813685248 := by
  decide!

/-- C8, amended.  Start with the player present at a double `position.x`, the walk
clip loaded, only the forward intent active and no jump in progress.  After any
frames with any frame times, one more frame raises nothing, ends in Walk, and
moves the player by `moveSpeed` along -z in double arithmetic whatever the frame
time is: `position.z` becomes the double nearest to `position.z - moveSpeed`,
`x` and `y` stay as they are.  After `k` frames `position.z` is the `k`-fold
rounded sum `forwardZ position.z k`. -/
theorem forward_walk (s : State) (p : Player) (hp : s.player = some p)
    (hx : Double.round p.position.x = p.position.x)
    (hw : s.playerAnimations.walk = true)
    (hf : s.moveForward = true) (hb : s.moveBackward = false) (hl : s.moveLeft = false)
    (hr : s.moveRight = false) (hj : s.isJumping = false)
    (deltaTimes : List ℚ) (deltaTime : ℚ) :
    (updatePlayerMovement (framesOf s deltaTimes) deltaTime).error = none ∧
    (framesOf s (deltaTimes ++ [deltaTime])).currentAnimationState = AnimState.walk ∧
    (framesOf s (deltaTimes ++ [deltaTime])).isJumping = false ∧
    ∃ q0 q : Player, (framesOf s deltaTimes).player = some q0 ∧
      (framesOf s (deltaTimes ++ [deltaTime])).player = some q ∧
      q.position.x = p.position.x ∧ q.position.y = p.position.y ∧
      q.position.z = Double.round (q0.position.z - moveSpeed) ∧
      q.position.z = forwardZ p.position.z (deltaTimes.length + 1) := by
  have h0 : ForwardInv p 0 s := ⟨hf, hb, hl, hr, hj, hw, p, hp, rfl, rfl, rfl⟩
  have h1 := forwardInv_framesOf p hx deltaTimes 0 s h0
  rw [Nat.zero_add] at h1
  obtain ⟨he, hc, h2⟩ := forwardInv_frame p _ _ deltaTime hx h1
  have e : framesOf s (deltaTimes ++ [deltaTime])
      = (updatePlayerMovement (framesOf s deltaTimes) deltaTime).state := by
    simp [framesOf, List.foldl_append]
  rw [e]
  obtain ⟨-, -, -, -, -, -, q0, hq0, -, -, hz0⟩ := h1
  obtain ⟨-, -, -, -, hj2, -, q, hq, hqx, hqy, hz⟩ := h2
  refine ⟨he, hc, hj2, q0, q, hq0, hq, hqx, hqy, ?_, hz⟩
  rw [hz, hz0]
  show Double.add _ (Double.mul moveSpeed (-1)) = _
  rw [moveSpeed_mul_neg_one]
  unfold Double.add
  rw [sub_eq_add_neg]

/-- An instance of C8 as amended: the loaded state with W held down and five frames
of 1/10 s; the state is Walk and the player stands at z = -1/2, the five-fold
rounded sum of -0.1. -/
theorem forward_walk_witness :
    (framesOf (onKeyDown KeyCode.keyW loadedState)
      [1 / 10, 1 / 10, 1 / 10, 1 / 10, 1 / 10]).currentAnimationState = AnimState.walk ∧
    ∃ q : Player, (framesOf (onKeyDown KeyCode.keyW loadedState)
      [1 / 10, 1 / 10, 1 / 10, 1 / 10, 1 / 10]).player = some q ∧
      q.position.z = -1 / 2 := by
  obtain ⟨-, hc, -, -, q, -, hq, -, -, -, hz⟩ :=
    forward_walk (onKeyDown KeyCode.keyW loadedState) ⟨⟨0, 0, 0⟩⟩
      (by decide!) (by decide!) (by decide!) (by decide!) (by decide!) (by decide!)
      (by decide!) (by decide!)
      [1 / 10, 1 / 10, 1 / 10, 1 / 10] (1 / 10)
  refine ⟨hc, q, hq, hz.trans ?_⟩
  decide!

/-! ## A jump from the ground -/

theorem intent_false (s : State) (hf : s.moveForward = false) (hb : s.moveBackward = false)
    (hl : s.moveLeft = false) (hr : s.moveRight = false) : s.intent = false := by
  unfold State.intent
  rw [hf, hb, hl, hr]
  rfl

theorem jumpHeight_succ (deltaTime : ℚ) (k : ℕ) :
    jumpHeight deltaTime k + (5 + gravity * deltaTime * 2 * k + gravity * deltaTime * 2)
      * deltaTime = jumpHeight deltaTime (k + 1) := by
  unfold jumpHeight gravity
  push_cast
  ring

theorem airInv_frame (deltaTime : ℚ) (k : ℕ) (s : State) (h : AirInv deltaTime k s) :
    (updatePlayerMovement s deltaTime).error = none ∧
    (¬ jumpHeight deltaTime (k + 1) < 0 →
      AirInv deltaTime (k + 1) (updatePlayerMovement s deltaTime).state ∧
      (updatePlayerMovement s deltaTime).state.currentAnimationState = AnimState.jump) ∧
    (jumpHeight deltaTime (k + 1) < 0 → RestInv (updatePlayerMovement s deltaTime).state) := by
  obtain ⟨hf, hb, hl, hr, ha, hj, hv, q, hq, hy⟩ := h
  obtain ⟨he, ⟨q1, hq1, -, -, hy1⟩, hj1, hv1, -, ha1, hc1⟩ :=
    updatePlayerMovement_spec s q deltaTime hq
  obtain ⟨f1, f2, f3, f4⟩ := updatePlayerMovement_flags s deltaTime
  have hi := intent_false s hf hb hl hr
  have hh : integratedHeight s q deltaTime = jumpHeight deltaTime (k + 1) := by
    unfold integratedHeight
    rw [hy, hv]
    exact jumpHeight_succ deltaTime k
  rw [hh] at hy1 hj1 hv1 hc1
  simp only [hj, hi, ha, if_true, Bool.false_eq_true, if_false, false_and] at hy1 hj1 hv1 hc1
  refine ⟨he, fun hge => ?_, fun hlt => ?_⟩
  · simp only [hge, if_false] at hy1 hj1 hv1 hc1
    refine ⟨⟨f1.trans hf, f2.trans hb, f3.trans hl, f4.trans hr, ha1.trans ha, hj1, ?_,
      q1, hq1, hy1⟩, hc1⟩
    rw [hv1, hv]
    push_cast
    ring
  · simp only [hlt, if_true] at hy1 hj1 hv1 hc1
    exact ⟨f1.trans hf, f2.trans hb, f3.trans hl, f4.trans hr, ha1.trans ha, hj1, hv1, hc1,
      q1, hq1, hy1⟩

theorem restInv_frame (deltaTime : ℚ) (s : State) (h : RestInv s) :
    (updatePlayerMovement s deltaTime).error = none ∧
    RestInv (updatePlayerMovement s deltaTime).state := by
  obtain ⟨hf, hb, hl, hr, ha, hj, hv, hc, q, hq, hy⟩ := h
  obtain ⟨he, ⟨q1, hq1, -, -, hy1⟩, hj1, hv1, -, ha1, hc1⟩ :=
    updatePlayerMovement_spec s q deltaTime hq
  obtain ⟨f1, f2, f3, f4⟩ := updatePlayerMovement_flags s deltaTime
  have hi := intent_false s hf hb hl hr
  simp only [hj, hi, ha, if_true, Bool.false_eq_true, if_false] at hy1 hj1 hv1 hc1
  exact ⟨he, f1.trans hf, f2.trans hb, f3.trans hl, f4.trans hr, ha1.trans ha, hj1,
    hv1.trans hv, hc1, q1, hq1, hy1.trans hy⟩

theorem exists_jumpHeight_neg (deltaTime : ℚ) (hdt : 0 < deltaTime) :
    ∃ m : ℕ, jumpHeight deltaTime (m + 1) < 0 := by
  obtain ⟨m, hm⟩ := exists_nat_gt (25 / (49 * deltaTime))
  refine ⟨m, ?_⟩
  have h1 : (25 : ℚ) < 49 * deltaTime * m := by
    have := (div_lt_iff₀ (by positivity : (0 : ℚ) < 49 * deltaTime)).mp hm
    linarith
  have h2 : jumpHeight deltaTime (m + 1)
      = -((m + 1 : ℚ) * deltaTime * (49 * deltaTime * (m + 2) - 25)) / 5 := by
    unfold jumpHeight
    push_cast
    ring
  rw [h2]
  have h3 : (0 : ℚ) < (m + 1 : ℚ) * deltaTime * (49 * deltaTime * (m + 2) - 25) := by
    have hm0 : (0 : ℚ) ≤ m := Nat.cast_nonneg m
    have : (0 : ℚ) < 49 * deltaTime * (m + 2) - 25 := by nlinarith
    positivity
  linarith

theorem jumpHeight_zero (deltaTime : ℚ) : jumpHeight deltaTime 0 = 0 := by
  simp [jumpHeight]

theorem airInv_frames (deltaTime : ℚ) (s : State) (h0 : AirInv deltaTime 0 s) (m : ℕ)
    (hm : ∀ i, i < m → ¬ jumpHeight deltaTime (i + 1) < 0) (k : ℕ) (hk : k ≤ m) :
    AirInv deltaTime k (frames deltaTime k s) ∧
    (1 ≤ k → (frames deltaTime k s).currentAnimationState = AnimState.jump) := by
  induction k with
  | zero => exact ⟨h0, fun h => absurd h (by omega)⟩
  | succ j ih =>
    obtain ⟨hj, -⟩ := ih (by omega)
    obtain ⟨-, hair, -⟩ := airInv_frame deltaTime j _ hj
    obtain ⟨h1, h2⟩ := hair (hm j (by omega))
    exact ⟨h1, fun _ => h2⟩

theorem restInv_frames (deltaTime : ℚ) (s : State) (h : RestInv s) (j : ℕ) :
    RestInv (frames deltaTime j s) := by
  induction j with
  | zero => exact h
  | succ i ih => exact (restInv_frame deltaTime _ ih).2

theorem frames_add (deltaTime : ℚ) (s : State) (n j : ℕ) :
    frames deltaTime (n + j) s = frames deltaTime j (frames deltaTime n s) := by
  induction j with
  | zero => rfl
  | succ i ih =>
    show (updatePlayerMovement (frames deltaTime (n + i) s) deltaTime).state = _
    rw [ih]
    rfl

theorem integratedHeight_first (s : State) (p : Player) (deltaTime : ℚ)
    (hy : p.position.y = 0) (hj : s.isJumping = false) :
    integratedHeight (onKeyDown KeyCode.space s) p deltaTime = jumpHeight deltaTime 1 := by
  have e : onKeyDown KeyCode.space s = { s with isJumping := true, yVelocity := 5 } := by
    simp [onKeyDown, hj]
  rw [e]
  unfold integratedHeight jumpHeight gravity
  rw [hy]
  push_cast
  ring

/-- C7, as the code has it, refuting the claim.  In the loaded state, after a Space
key-down and frames of 3/10 s, the first frame already lands: it ends in Idle on
the ground with the jump over, and the animation state is Jump at the end of no
frame, so the state machine never goes from Jump to Idle. -/
theorem long_frame_never_jump :
    (frames (3 / 10) 1 (onKeyDown KeyCode.space loadedState)).currentAnimationState
      = AnimState.idle ∧
    (frames (3 / 10) 1 (onKeyDown KeyCode.space loadedState)).isJumping = false ∧
    (frames (3 / 10) 1 (onKeyDown KeyCode.space loadedState)).player
      = some ⟨⟨0, 0, 0⟩⟩ ∧
    ¬ ∃ k, (frames (3 / 10) k (onKeyDown KeyCode.space loadedState)).currentAnimationState
      = AnimState.jump := by
  refine ⟨by decide!, by decide!, by decide!, ?_⟩
  rintro ⟨k, hk⟩
  have h1 : RestInv (frames (3 / 10) 1 (onKeyDown KeyCode.space loadedState)) :=
    ⟨by decide!, by decide!, by decide!, by decide!, by decide!, by decide!, by decide!,
      by decide!, ⟨⟨0, 0, 0⟩⟩, by decide!, rfl⟩
  cases k with
  | zero =>
    revert hk
    decide!
  | succ j =>
    have h2 := restInv_frames (3 / 10) _ h1 j
    rw [← frames_add, Nat.add_comm] at h2
    rw [h2.2.2.2.2.2.2.2.1] at hk
    cases hk

/-- C7, amended.  Start grounded (`position.y = 0`, `isJumping = false`) with the
three clips loaded and no movement intent.  After one Space key-down and frames
of any fixed `deltaTime > 0` with no further input, there is a frame `n ≥ 1`
such that: no frame raises anything; at the end of every frame before `n` the
state is Jump and the jump is in progress; at the end of frame `n` and of every
later frame the state is Idle with `position.y = 0`, `isJumping = false` and
`yVelocity = 0`.  When the first frame does not land (its integrated height is
not below 0), `n ≥ 2`, so the state is Jump before the landing and the state
machine goes from Jump to Idle once, at frame `n`; when the first frame lands,
`n = 1`, so the state is Idle at the end of every frame and never Jump. -/
theorem jump_lands_once (s : State) (p : Player) (hp : s.player = some p)
    (hy : p.position.y = 0) (hj : s.isJumping = false)
    (hclips : s.playerAnimations = ⟨true, true, true⟩)
    (hf : s.moveForward = false) (hb : s.moveBackward = false) (hl : s.moveLeft = false)
    (hr : s.moveRight = false) (deltaTime : ℚ) (hdt : 0 < deltaTime) :
    ∃ n : ℕ, 1 ≤ n ∧
      (∀ k, (updatePlayerMovement (frames deltaTime k (onKeyDown KeyCode.space s))
        deltaTime).error = none) ∧
      (∀ k, 1 ≤ k → k < n →
        (frames deltaTime k (onKeyDown KeyCode.space s)).currentAnimationState
          = AnimState.jump ∧
        (frames deltaTime k (onKeyDown KeyCode.space s)).isJumping = true) ∧
      (∀ k, n ≤ k →
        (frames deltaTime k (onKeyDown KeyCode.space s)).currentAnimationState
          = AnimState.idle ∧
        (frames deltaTime k (onKeyDown KeyCode.space s)).isJumping = false ∧
        (frames deltaTime k (onKeyDown KeyCode.space s)).yVelocity = 0 ∧
        ∃ q : Player, (frames deltaTime k (onKeyDown KeyCode.space s)).player = some q ∧
          q.position.y = 0) ∧
      (¬ integratedHeight (onKeyDown KeyCode.space s) p deltaTime < 0 → 2 ≤ n) ∧
      (integratedHeight (onKeyDown KeyCode.space s) p deltaTime < 0 → n = 1) := by
  have hex := exists_jumpHeight_neg deltaTime hdt
  have hmin : ∀ i, i < Nat.find hex → ¬ jumpHeight deltaTime (i + 1) < 0 :=
    fun i hi => Nat.find_min hex hi
  have hspec : jumpHeight deltaTime (Nat.find hex + 1) < 0 := Nat.find_spec hex
  have hfirst := integratedHeight_first s p deltaTime hy hj
  have h0 : AirInv deltaTime 0 (onKeyDown KeyCode.space s) := by
    have e : onKeyDown KeyCode.space s = { s with isJumping := true, yVelocity := 5 } := by
      simp [onKeyDown, hj]
    rw [e]
    refine ⟨hf, hb, hl, hr, hclips, rfl, ?_, p, hp, ?_⟩
    · simp
    · rw [hy, jumpHeight_zero]
  have hair := airInv_frames deltaTime _ h0 (Nat.find hex) hmin
  have hrest : RestInv (frames deltaTime (Nat.find hex + 1) (onKeyDown KeyCode.space s)) :=
    (airInv_frame deltaTime _ _ (hair _ le_rfl).1).2.2 hspec
  have hlater : ∀ k, Nat.find hex + 1 ≤ k →
      RestInv (frames deltaTime k (onKeyDown KeyCode.space s)) := by
    intro k hk
    obtain ⟨j, rfl⟩ := Nat.exists_eq_add_of_le hk
    rw [frames_add]
    exact restInv_frames deltaTime _ hrest j
  refine ⟨Nat.find hex + 1, by omega, fun k => ?_, fun k hk1 hk2 => ?_, fun k hk => ?_,
    fun hge => ?_, fun hlt => ?_⟩
  · by_cases hk : k ≤ Nat.find hex
    · exact (airInv_frame deltaTime k _ (hair k hk).1).1
    · exact (restInv_frame deltaTime _ (hlater k (by omega))).1
  · obtain ⟨ha, hc⟩ := hair k (by omega)
    exact ⟨hc hk1, ha.2.2.2.2.2.1⟩
  · obtain ⟨-, -, -, -, -, hj1, hv1, hc1, q, hq, hq0⟩ := hlater k hk
    exact ⟨hc1, hj1, hv1, q, hq, hq0⟩
  · rw [hfirst] at hge
    have hne : Nat.find hex ≠ 0 := by
      intro h
      rw [h] at hspec
      exact hge hspec
    omega
  · rw [hfirst] at hlt
    have hz : Nat.find hex = 0 := Nat.le_zero.mp (Nat.find_min' hex hlt)
    omega

/-- An instance of C7 as amended: the loaded state with `deltaTime = 1/10`. -/
theorem jump_lands_once_witness :
    ∃ n : ℕ, 1 ≤ n ∧
      (∀ k, (updatePlayerMovement (frames (1 / 10) k (onKeyDown KeyCode.space loadedState))
        (1 / 10)).error = none) ∧
      (∀ k, 1 ≤ k → k < n →
        (frames (1 / 10) k (onKeyDown KeyCode.space loadedState)).currentAnimationState
          = AnimState.jump ∧
        (frames (1 / 10) k (onKeyDown KeyCode.space loadedState)).isJumping = true) ∧
      (∀ k, n ≤ k →
        (frames (1 / 10) k (onKeyDown KeyCode.space loadedState)).currentAnimationState
          = AnimState.idle ∧
        (frames (1 / 10) k (onKeyDown KeyCode.space loadedState)).isJumping = false ∧
        (frames (1 / 10) k (onKeyDown KeyCode.space loadedState)).yVelocity = 0 ∧
        ∃ q : Player, (frames (1 / 10) k (onKeyDown KeyCode.space loadedState)).player
            = some q ∧ q.position.y = 0) ∧
      2 ≤ n := by
  obtain ⟨n, h1, h2, h3, h4, h5, -⟩ :=
    jump_lands_once loadedState ⟨⟨0, 0, 0⟩⟩ (by decide!) rfl (by decide!)
      (by decide!) (by decide!) (by decide!) (by decide!) (by decide!) (1 / 10) (by norm_num)
  exact ⟨n, h1, h2, h3, h4, h5 (by decide!)⟩

/-- With `deltaTime = 1/10` the landing frame is the fifth: Jump after frames 1 to 4,
Idle on the ground after frame 5. -/
theorem jump_lands_on_fifth_frame :
    (frames (1 / 10) 4 (onKeyDown KeyCode.space loadedState)).currentAnimationState
      = AnimState.jump ∧
    (frames (1 / 10) 5 (onKeyDown KeyCode.space loadedState)).currentAnimationState
      = AnimState.idle ∧
    (frames (1 / 10) 5 (onKeyDown KeyCode.space loadedState)).isJumping = false := by
  decide!

end TsScript
